import Mathlib

/-!
Verification of the endfield-cat reconciliation and deduplication engine
(src-tauri/src: hg_api/gacha.rs, hg_api/sync.rs, database.rs,
services/metadata.rs) against its specification. The Rust functions are
shallowly embedded as Lean functions; network and file-system interaction is
represented by finite response traces and oracle functions, so every run of
an embedded function corresponds to a run of the source function in an
environment that answers its requests the same way.
-/

set_option autoImplicit false
set_option maxRecDepth 8000

namespace EndfieldCat

/-! ## Gacha crawler (hg_api/gacha.rs, hg_api/sync.rs) -/

/-- A gacha record as built by the crawlers (struct GachaRecord, gacha.rs
lines 22-34). -/
structure GachaRecord where
  name : String
  item_id : String
  rarity : Int
  pool_id : String
  pool_name : String
  seq_id : String
  pulled_at : Int
  pool_type : String
  is_free : Bool
  is_new : Bool
deriving DecidableEq

/-- One JSON item of a record page, abstracted to the field extractions the
code performs: a field is none when the key is absent or its value is not of
the expected shape. primaryName and primaryId stand for charName and charId
on the char endpoint, and for weaponName and weaponId on the weapon
endpoint. -/
structure RawItem where
  seqId : Option String
  primaryName : Option String
  primaryId : Option String
  rarity : Option Int
  poolId : Option String
  poolName : Option String
  gachaTs : Option Int
  isFree : Option Bool
  isNew : Option Bool
deriving DecidableEq

/-- One page of the record endpoint, abstracted to the extractions the code
performs: code is json_i64(code).or(json_i64(status)).unwrap_or(-1), msg is
the optional msg string, list is the data.list array, hasMore is
data.hasMore as a bool. -/
structure ApiPage where
  code : Int
  msg : Option String
  list : Option (List RawItem)
  hasMore : Option Bool
deriving DecidableEq

/-- Record construction of the char crawlers (gacha.rs lines 102-113,
sync.rs lines 215-249). -/
def parse_char_item (pool_type : String) (it : RawItem) : GachaRecord :=
  { name := (it.primaryName.orElse fun _ => it.primaryId).getD ""
    item_id := it.primaryId.getD ""
    rarity := it.rarity.getD 0
    pool_id := it.poolId.getD ""
    pool_name := it.poolName.getD ""
    seq_id := it.seqId.getD ""
    pulled_at := it.gachaTs.getD 0
    pool_type := pool_type
    is_free := it.isFree.getD false
    is_new := it.isNew.getD false }

/-- Record construction of the weapon crawlers (gacha.rs lines 260-271,
sync.rs lines 400-434): the poolId of the item defaults to the requested
pool id and pool_type is the fixed weapon pool type string. -/
def parse_weapon_item (pool_id : String) (it : RawItem) : GachaRecord :=
  { name := (it.primaryName.orElse fun _ => it.primaryId).getD ""
    item_id := it.primaryId.getD ""
    rarity := it.rarity.getD 0
    pool_id := it.poolId.getD pool_id
    pool_name := it.poolName.getD ""
    seq_id := it.seqId.getD ""
    pulled_at := it.gachaTs.getD 0
    pool_type := "E_CharacterGachaPoolType_Weapon"
    is_free := it.isFree.getD false
    is_new := it.isNew.getD false }

/-- The per-page for-loop with the incremental stop check (gacha.rs lines
91-115): returns the records built before the sentinel together with whether
the sentinel was hit, which in the source is the break out of the outer
loop. The sentinel is compared against the extracted seqId before the record
is appended. -/
def takeUntilStop (parse : RawItem → GachaRecord) (stop : Option String) :
    List RawItem → List GachaRecord × Bool
  | [] => ([], false)
  | it :: rest =>
    match stop with
    | some stopId =>
      if it.seqId.getD "" = stopId then ([], true)
      else
        (parse it :: (takeUntilStop parse stop rest).1,
         (takeUntilStop parse stop rest).2)
    | none =>
      (parse it :: (takeUntilStop parse stop rest).1,
       (takeUntilStop parse stop rest).2)

/-- Result of one crawl: the Rust return value plus the list of seq_id
cursors of the requests that were issued (none = cursor omitted). -/
structure CrawlOut where
  result : Except String (List GachaRecord)
  requests : List (Option String)

/-- The pagination loop shared by hg_fetch_char_records (gacha.rs 52-135),
fetch_char_records_internal (sync.rs 162-270), hg_fetch_weapon_records
(gacha.rs 210-292) and fetch_weapon_records_internal (sync.rs 347-455), run
against the finite trace of pages the endpoint serves to the successive
requests; a run that needs a page beyond the trace ends in a transport
error. -/
def crawlLoop (parse : RawItem → GachaRecord) (errMsg : String)
    (stop : Option String) :
    List ApiPage → Option String → List GachaRecord → CrawlOut
  | [], cursor, _ => ⟨.error "network error", [cursor]⟩
  | p :: rest, cursor, acc =>
    if p.code = 0 then
      match p.list with
      | none => ⟨.ok acc, [cursor]⟩
      | some [] => ⟨.ok acc, [cursor]⟩
      | some (it :: its) =>
        match takeUntilStop parse stop (it :: its) with
        | (newRecs, true) => ⟨.ok (acc ++ newRecs), [cursor]⟩
        | (newRecs, false) =>
          match (acc ++ newRecs).getLast? with
          | none => ⟨.ok (acc ++ newRecs), [cursor]⟩
          | some last =>
            if 10000 < (acc ++ newRecs).length then ⟨.ok (acc ++ newRecs), [cursor]⟩
            else if p.hasMore = some false then ⟨.ok (acc ++ newRecs), [cursor]⟩
            else
              ⟨(crawlLoop parse errMsg stop rest (some last.seq_id) (acc ++ newRecs)).result,
               cursor :: (crawlLoop parse errMsg stop rest (some last.seq_id) (acc ++ newRecs)).requests⟩
    else ⟨.error (p.msg.getD errMsg), [cursor]⟩

/-- hg_fetch_char_records and fetch_char_records_internal for one pool
type: first request carries no seq_id cursor and the accumulator starts
empty. -/
def fetch_char_records (pool_type : String) (last_seq_id_stop : Option String)
    (pages : List ApiPage) : CrawlOut :=
  crawlLoop (parse_char_item pool_type) "获取寻访记录失败" last_seq_id_stop pages none []

/-- hg_fetch_weapon_records and fetch_weapon_records_internal for one
weapon pool. -/
def fetch_weapon_records (pool_id : String) (last_seq_id_stop : Option String)
    (pages : List ApiPage) : CrawlOut :=
  crawlLoop (parse_weapon_item pool_id) "获取武器记录失败" last_seq_id_stop pages none []

/-- The items of one page, as iterated by the source loop. -/
def pageItems (p : ApiPage) : List RawItem := p.list.getD []

/-- The items of a page sequence in fetch order. -/
def pagesItems : List ApiPage → List RawItem
  | [] => []
  | p :: ps => pageItems p ++ pagesItems ps

/-- The seqId extraction applied to every item (unwrap_or of the empty
string). -/
def itemSeqId (it : RawItem) : String := it.seqId.getD ""

/-- The seqId of the last record of a page, which the loop uses as the next
cursor. -/
def pageLastSeq (p : ApiPage) : String :=
  ((pageItems p).getLast?.map itemSeqId).getD ""

/-- The cursors of the requests issued after each page of the list. -/
def nextCursors : List ApiPage → List (Option String)
  | [] => []
  | p :: ps => some (pageLastSeq p) :: nextCursors ps

/-- A page on which the loop keeps going: success code, a non-empty list and
no hasMore=false flag. -/
def contPage (p : ApiPage) : Prop :=
  p.code = 0 ∧ p.hasMore ≠ some false ∧ ∃ l, p.list = some l ∧ l ≠ []

/-- No item of the list carries the stop sentinel. -/
def noStopIn (stopId : String) (items : List RawItem) : Prop :=
  ∀ it ∈ items, itemSeqId it ≠ stopId

/-! ## Record persistence (database.rs db_save_gacha_records,
sync.rs save_gacha_records_internal) -/

/-- struct ApiGachaRecord (database.rs 283-295). -/
structure ApiGachaRecord where
  name : String
  item_id : Option String
  rarity : Int
  pool_id : String
  pool_name : String
  seq_id : String
  pulled_at : Int
  pool_type : String
  is_free : Bool
  is_new : Bool
deriving DecidableEq

/-- A row of the gacha_pulls table (schema in database.rs 63-107): seq_id,
pool_type and item_id are nullable columns. -/
structure GachaPullRow where
  uid : String
  banner_id : String
  banner_name : String
  item_name : String
  item_id : Option String
  rarity : Int
  pulled_at : Int
  seq_id : Option String
  pool_type : Option String
  is_free : Bool
  is_new : Bool
deriving DecidableEq

/-- The WHERE clause of the UPDATE: uid = ? AND seq_id = ? AND
pool_type = ?. A row with a NULL seq_id or pool_type matches nothing, per
SQL comparison semantics. -/
def rowMatches (uid : String) (r : ApiGachaRecord) (row : GachaPullRow) : Bool :=
  row.uid == uid && row.seq_id == some r.seq_id && row.pool_type == some r.pool_type

/-- The SET list of the UPDATE: all mutable fields refreshed, the identity
columns untouched. -/
def updateRowFields (r : ApiGachaRecord) (row : GachaPullRow) : GachaPullRow :=
  { row with
    banner_id := r.pool_id
    banner_name := r.pool_name
    item_name := r.name
    item_id := r.item_id
    rarity := r.rarity
    pulled_at := r.pulled_at
    is_free := r.is_free
    is_new := r.is_new }

/-- The row written by the INSERT branch. -/
def insertedRow (uid : String) (r : ApiGachaRecord) : GachaPullRow :=
  { uid := uid
    banner_id := r.pool_id
    banner_name := r.pool_name
    item_name := r.name
    item_id := r.item_id
    rarity := r.rarity
    pulled_at := r.pulled_at
    seq_id := some r.seq_id
    pool_type := some r.pool_type
    is_free := r.is_free
    is_new := r.is_new }

/-- One iteration of the save loop: the UPDATE keyed on
(uid, seq_id, pool_type) touches every matching row, then an INSERT runs
exactly when rows_affected was zero. -/
def saveStep (uid : String) (db : List GachaPullRow) (r : ApiGachaRecord) :
    List GachaPullRow :=
  let affected := (db.filter (rowMatches uid r)).length
  let updated := db.map fun row => if rowMatches uid r row then updateRowFields r row else row
  if affected = 0 then updated ++ [insertedRow uid r] else updated

/-- db_save_gacha_records (database.rs 297-410) and
save_gacha_records_internal (sync.rs 607-664): identical row effects, one
transaction folding the update-then-insert step over the batch. The
existing_seq_ids probe in db_save_gacha_records is computed but never read,
so it has no effect on the rows. -/
def save_gacha_records (db : List GachaPullRow) (uid : String)
    (records : List ApiGachaRecord) : List GachaPullRow :=
  records.foldl (saveStep uid) db

/-- The identity of a record within one uid. -/
def recordKey (r : ApiGachaRecord) : String × String := (r.seq_id, r.pool_type)

/-! ## Account upsert (database.rs db_upsert_account) -/

/-- A row of the accounts table (database.rs 76-87): server_id is NOT NULL
with default, the token columns are nullable. -/
structure AccountRow where
  uid : String
  role_id : Option String
  nick_name : Option String
  server_id : String
  channel_id : Option Int
  user_token : Option String
  oauth_token : Option String
  u8_token : Option String
deriving DecidableEq

/-- db_upsert_account (database.rs 448-485) for one uid; prev is the
existing row, if any. The token insert values are COALESCE(arg, empty
string) and therefore never NULL; on conflict each token keeps the stored
value whenever the excluded one is the empty string, and server_id takes the
excluded value because it is never NULL. -/
def db_upsert_account (prev : Option AccountRow) (uid : String)
    (role_id nick_name server_id : Option String) (channel_id : Option Int)
    (user_token oauth_token u8_token : Option String) : AccountRow :=
  let ins : AccountRow :=
    { uid := uid
      role_id := role_id
      nick_name := nick_name
      server_id := server_id.getD "1"
      channel_id := channel_id
      user_token := some (user_token.getD "")
      oauth_token := some (oauth_token.getD "")
      u8_token := some (u8_token.getD "") }
  match prev with
  | none => ins
  | some acc =>
    { uid := acc.uid
      role_id := role_id.orElse fun _ => acc.role_id
      nick_name := nick_name.orElse fun _ => acc.nick_name
      server_id := server_id.getD "1"
      channel_id := channel_id.orElse fun _ => acc.channel_id
      user_token := if user_token.getD "" ≠ "" then some (user_token.getD "") else acc.user_token
      oauth_token := if oauth_token.getD "" ≠ "" then some (oauth_token.getD "") else acc.oauth_token
      u8_token := if u8_token.getD "" ≠ "" then some (u8_token.getD "") else acc.u8_token }

/-! ## Manifest URL construction (services/metadata.rs build_manifest_url) -/

/-- Rust str::find of a substring, as a character index. Every marker the
source searches for is ASCII, so its byte-index matches coincide with
character-index matches in well-formed UTF-8. -/
def findSubAux (needle : List Char) : List Char → Nat → Option Nat
  | [], i => if needle = [] then some i else none
  | c :: rest, i =>
    if needle.isPrefixOf (c :: rest) then some i
    else findSubAux needle rest (i + 1)

def findSub (hay needle : List Char) : Option Nat := findSubAux needle hay 0

def rfindCharAux (c : Char) : List Char → Nat → Option Nat → Option Nat
  | [], _, best => best
  | x :: rest, i, best =>
    rfindCharAux c rest (i + 1) (if x = c then some i else best)

/-- Rust str::rfind of a character. -/
def rfindChar (hay : List Char) (c : Char) : Option Nat := rfindCharAux c hay 0 none

/-- The literal version placeholder of the base URL ( \x7bversion\x7d ). -/
def versionToken : List Char := "\x7bversion\x7d".toList

/-- Helper of replaceVersionToken, structurally recursive on a fuel that
bounds the length of the text (the placeholder is 9 characters long, so
every step consumes at least one character). -/
def replaceVersionTokenAux (ver : List Char) : Nat → List Char → List Char
  | _, [] => []
  | 0, l => l
  | fuel + 1, c :: rest =>
    if versionToken.isPrefixOf (c :: rest) then
      ver ++ replaceVersionTokenAux ver fuel ((c :: rest).drop versionToken.length)
    else c :: replaceVersionTokenAux ver fuel rest

/-- Rust str::replace of the version placeholder by the version string. -/
def replaceVersionToken (ver l : List Char) : List Char :=
  replaceVersionTokenAux ver l.length l

def manifestFileName : List Char := "manifest.json".toList

def repoMarker : List Char := "endfield-cat-metadata".toList

/-- Rust str::trim on the character sequence (ASCII whitespace; the URLs
and versions involved are ASCII, where Char.isWhitespace agrees with the
Rust definition). -/
def strTrim (s : String) : List Char :=
  ((s.toList.dropWhile Char.isWhitespace).reverse.dropWhile Char.isWhitespace).reverse

/-- Rust str::to_uppercase, character by character (the compared values are
ASCII hex digests). -/
def strToUpper (s : String) : String := String.mk (s.toList.map Char.toUpper)

/-- Lines 68-73 of metadata.rs: strip a trailing manifest.json by
truncating after the last slash, when present. -/
def stripManifestSuffix (url : List Char) : List Char :=
  if manifestFileName.isSuffixOf url then
    match rfindChar url '/' with
    | some idx => url.take (idx + 1)
    | none => url
  else url

/-- Lines 74-77 of metadata.rs: a trimmed-empty version string means
latest. -/
def resolveVersion (version : String) : List Char :=
  if strTrim version = [] then "latest".toList else strTrim version

/-- Lines 79-106 of metadata.rs: substitute the literal placeholder when
present, else insert or rewrite a tag segment after the repository
marker. -/
def applyVersion (ver url1 : List Char) : List Char :=
  if (findSub url1 versionToken).isSome then
    replaceVersionToken ver url1
  else
    match findSub url1 repoMarker with
    | none => url1
    | some pos =>
      match (url1.drop (pos + repoMarker.length)).head? with
      | some '@' =>
        match findSub (url1.drop (pos + repoMarker.length + 1)) ['/'] with
        | some so =>
          url1.take (pos + repoMarker.length) ++ ('@' :: 'v' :: ver)
            ++ url1.drop (pos + repoMarker.length + 1 + so)
        | none => url1.take (pos + repoMarker.length) ++ ('@' :: 'v' :: ver)
      | _ =>
        match findSub (url1.drop (pos + repoMarker.length)) ['/'] with
        | some so =>
          url1.take (pos + repoMarker.length) ++ ('@' :: 'v' :: ver)
            ++ url1.drop (pos + repoMarker.length + so)
        | none => url1 ++ ('@' :: 'v' :: ver)

/-- Lines 108-111 of metadata.rs: ensure a trailing slash, then append
manifest.json. -/
def ensureSlashManifest (url2 : List Char) : List Char :=
  (if url2.getLast? = some '/' then url2 else url2 ++ ['/']) ++ manifestFileName

/-- build_manifest_url (metadata.rs lines 62-113), on the character
sequences of the strings; the four stages mirror the successive mutations
of the url variable in the source. All slicing in the source happens at
char boundaries found by searching for ASCII markers, so character indices
agree with the byte indices of the source. -/
def build_manifest_url (base_url version : String) : Except String String :=
  if strTrim base_url = [] then .error "base_url is empty"
  else .ok (String.mk (ensureSlashManifest
    (applyVersion (resolveVersion version) (stripManifestSuffix (strTrim base_url)))))

/-! ## Incremental verify phase (services/metadata.rs update_metadata,
compute_sha256) -/

/-- One manifest entry, abstracted to the extractions the code performs:
path is get(path).as_str (the entry is skipped when none), checksum is
get(checksum).as_str. -/
structure ManEntry where
  path : Option String
  checksum : Option String
deriving DecidableEq

/-- The needs_download decision of the verify phase (metadata.rs 463-475).
fileExists is local_path.exists(); hashResult is what compute_sha256 would
return for the file, an uppercase hex digest of its content or a read
error. -/
def needs_download (fileExists : Bool) (hashResult : Except String String)
    (expected_checksum : String) : Bool :=
  if fileExists then
    if expected_checksum = "" then false
    else
      match hashResult with
      | .ok local_hash => strToUpper local_hash != expected_checksum
      | .error _ => true
  else true

/-- The uppercased manifest checksum of an entry (unwrap_or of the empty
string, then to_uppercase). -/
def expectedChecksum (e : ManEntry) : String := strToUpper (e.checksum.getD "")

/-- Phase 1 of update_metadata (metadata.rs 443-480): builds the
to_download queue of (path, expected checksum) pairs, skipping entries
without a path. -/
def verify_phase (fileExists : String → Bool)
    (sha256 : String → Except String String) (entries : List ManEntry) :
    List (String × String) :=
  entries.foldl
    (fun td e =>
      match e.path with
      | none => td
      | some p =>
        if needs_download (fileExists p) (sha256 p) (expectedChecksum e) then
          td ++ [(p, expectedChecksum e)]
        else td)
    []

/-! ## Reconciliation event traces (services/metadata.rs download_metadata,
update_metadata) -/

/-- Observable file-system actions of a reconciliation run. -/
inductive FsEvent where
  | writeManifest
  | fetchFile (path : String)
  | writeFile (path : String)
  | removeFile (path : String)
deriving DecidableEq

def eventIsFileWrite : FsEvent → Bool
  | .writeFile _ => true
  | _ => false

/-- Download of the listed files in order: each file is fetched and, on
success, written; a failed fetch aborts the run. Returns the events and the
success flag. -/
def download_files_events (fileOk : String → Bool) : List String → List FsEvent × Bool
  | [] => ([], true)
  | p :: rest =>
    if fileOk p then
      (FsEvent.fetchFile p :: FsEvent.writeFile p :: (download_files_events fileOk rest).1,
       (download_files_events fileOk rest).2)
    else ([FsEvent.fetchFile p], false)

/-- Event trace of download_metadata (metadata.rs 225-350), the full-reset
path: the manifest sidecar is written right after the manifest is fetched
(line 291), before the per-file downloads; extra files are removed only when
the manifest lists at least one path. The manifest argument folds the fetch
of the manifest and its parse into one result. -/
def download_metadata_events (base_url : Option String)
    (manifest : Except String (List (Option String))) (fileOk : String → Bool)
    (extraFiles : List String) : List FsEvent × Bool :=
  match base_url with
  | none => ([], true)
  | some _ =>
    match manifest with
    | .error _ => ([], false)
    | .ok entryPaths =>
      let paths := entryPaths.filterMap id
      let d := download_files_events fileOk paths
      if d.2 then
        (FsEvent.writeManifest ::
          (d.1 ++ if paths.isEmpty then [] else extraFiles.map FsEvent.removeFile), true)
      else (FsEvent.writeManifest :: d.1, false)

/-- Event trace of update_metadata (metadata.rs 365-565), the incremental
path: verify (no writes), download the queued files, clean the extra files,
and only then write the manifest sidecar (line 550). -/
def update_metadata_events (base_url : Option String)
    (manifest : Except String (List ManEntry)) (fileExists : String → Bool)
    (sha256 : String → Except String String) (fileOk : String → Bool)
    (extraFiles : List String) : List FsEvent × Bool :=
  match base_url with
  | none => ([], true)
  | some _ =>
    match manifest with
    | .error _ => ([], false)
    | .ok entries =>
      let toDownload := verify_phase fileExists sha256 entries
      let d := download_files_events fileOk (toDownload.map Prod.fst)
      if d.2 then
        (d.1 ++ extraFiles.map FsEvent.removeFile ++ [FsEvent.writeManifest], true)
      else (d.1, false)

/-- Every write of the manifest sidecar occurs strictly after every
data-file write of the trace. -/
def manifestWrittenLast (tr : List FsEvent) : Prop :=
  ∀ i j : Fin tr.length,
    tr.get i = FsEvent.writeManifest → eventIsFileWrite (tr.get j) = true →
    (j : Nat) < (i : Nat)

/-! ## Sync orchestrator (hg_api/sync.rs sync_gacha_by_token) -/

/-- struct AccountWithTokens (database.rs 425-436). -/
structure AccountWithTokens where
  uid : String
  role_id : Option String
  nick_name : Option String
  server_id : Option String
  channel_id : Option Int
  user_token : Option String
  oauth_token : Option String
  u8_token : Option String

/-- struct RoleInfo (sync.rs 76-82). -/
structure RoleInfo where
  uid : String
  role_id : Option String
  nick_name : Option String
  channel_id : Option Int

/-- provider_from_channel_id (sync.rs 29-35). -/
def providerFromChannelId (channel_id : Option Int) : String :=
  if channel_id = some 6 then "gryphline" else "hypergryph"

/-- gacha_to_api_record (sync.rs 460-473). -/
def gacha_to_api_record (r : GachaRecord) : ApiGachaRecord :=
  { name := r.name
    item_id := some r.item_id
    rarity := r.rarity
    pool_id := r.pool_id
    pool_name := r.pool_name
    seq_id := r.seq_id
    pulled_at := r.pulled_at
    pool_type := r.pool_type
    is_free := r.is_free
    is_new := r.is_new }

/-- Environment of one sync_gacha_by_token run: the outcome each external
call would produce. charFetch and weaponFetch take the pool discriminator
and the stop sentinel passed to the crawl. -/
structure SyncEnv where
  accountRow : Except String (Option AccountWithTokens)
  u8TokenResp : Except String String
  roleResp : Except String RoleInfo
  accountUpdateResp : Except String Unit
  seqRowsResp : Except String (List (String × String))
  charFetch : String → Option String → Except String (List GachaRecord)
  weaponPoolsResp : Except String (List (String × String))
  weaponFetch : String → Option String → Except String (List GachaRecord)
  saveResp : Except String Unit

/-- Observable outcome of one sync run: the Rust return value, the crawls
that were attempted with the stop sentinel each received, whether the
account UPDATE ran, and the records handed to the save transaction when it
committed. -/
structure SyncTrace where
  result : Except String (Nat × Bool)
  charCalls : List (String × Option String)
  weaponCalls : List (String × Option String)
  accountUpdateAttempted : Bool
  persisted : List ApiGachaRecord

/-- The fixed char pool types (sync.rs 565-569). -/
def charPoolTypes : List String :=
  ["E_CharacterGachaPoolType_Special",
   "E_CharacterGachaPoolType_Standard",
   "E_CharacterGachaPoolType_Beginner"]

/-- The stop-sentinel map built from the (pool_type, seq_id) rows, ordered
by pulled_at descending: entry(..).or_insert keeps the first row per key, so
a lookup returns the seq_id of the first row carrying that key. -/
def lastSeqLookup (rows : List (String × String)) (k : String) : Option String :=
  (rows.find? fun row => row.1 == k).map Prod.snd

/-- Steps 4-7 of sync_gacha_by_token (sync.rs 539-604): build the sentinel
map (incremental only, with a failed query degrading to the empty map),
crawl the fixed char pools and the discovered weapon pools skipping
individual failures, and persist the accumulated records when any. -/
def syncFetchPhase (env : SyncEnv) (mode : String) (accountUpdated : Bool) :
    SyncTrace :=
  let rows :=
    if mode = "incremental" then
      match env.seqRowsResp with
      | .ok r => r
      | .error _ => []
    else []
  let charCalls := charPoolTypes.map fun pt => (pt, lastSeqLookup rows pt)
  let charRecords :=
    charCalls.foldl
      (fun acc c =>
        match env.charFetch c.1 c.2 with
        | .ok rs => acc ++ rs
        | .error _ => acc) []
  let weaponCalls : List (String × Option String) :=
    match env.weaponPoolsResp with
    | .ok pools => pools.map fun pr => (pr.1, lastSeqLookup rows pr.1)
    | .error _ => []
  let allRecords :=
    weaponCalls.foldl
      (fun acc c =>
        match env.weaponFetch c.1 c.2 with
        | .ok rs => acc ++ rs
        | .error _ => acc) charRecords
  if allRecords.isEmpty then
    { result := .ok (allRecords.length, accountUpdated)
      charCalls := charCalls
      weaponCalls := weaponCalls
      accountUpdateAttempted := accountUpdated
      persisted := [] }
  else
    match env.saveResp with
    | .error e =>
      { result := .error e
        charCalls := charCalls
        weaponCalls := weaponCalls
        accountUpdateAttempted := accountUpdated
        persisted := [] }
    | .ok _ =>
      { result := .ok (allRecords.length, accountUpdated)
        charCalls := charCalls
        weaponCalls := weaponCalls
        accountUpdateAttempted := accountUpdated
        persisted := allRecords.map gacha_to_api_record }

/-- A run that failed before any crawl. -/
def noCallsTrace (e : String) : SyncTrace :=
  { result := .error e
    charCalls := []
    weaponCalls := []
    accountUpdateAttempted := false
    persisted := [] }

/-- sync_gacha_by_token (sync.rs 493-604) over an environment of response
oracles. Steps 1-3: account lookup, oauth presence check, fresh u8 token
(fatal on failure), best-effort profile lookup whose success triggers the
account UPDATE (fatal on failure of the UPDATE itself). -/
def sync_gacha_by_token (env : SyncEnv) (uid mode : String) : SyncTrace :=
  match env.accountRow with
  | .error e => noCallsTrace e
  | .ok none => noCallsTrace ("账户不存在: " ++ uid)
  | .ok (some account) =>
    match account.oauth_token.filter (fun s => !s.isEmpty) with
    | none => noCallsTrace "账户缺少 OAuth Token，请重新登录"
    | some _ =>
      match env.u8TokenResp with
      | .error e => noCallsTrace e
      | .ok _ =>
        match env.roleResp with
        | .ok _ =>
          match env.accountUpdateResp with
          | .error e => noCallsTrace e
          | .ok _ => syncFetchPhase env mode true
        | .error _ => syncFetchPhase env mode false

/-! ## Helper lemmas -/

theorem getLast?_map_eq {α β : Type} (f : α → β) :
    ∀ l : List α, (l.map f).getLast? = l.getLast?.map f
  | [] => rfl
  | [_] => rfl
  | a :: b :: l => by
    rw [List.map_cons, List.map_cons, List.getLast?_cons_cons, ← List.map_cons,
      getLast?_map_eq f (b :: l), List.getLast?_cons_cons]

theorem takeUntilStop_none (parse : RawItem → GachaRecord) :
    ∀ items : List RawItem, takeUntilStop parse none items = (items.map parse, false)
  | [] => rfl
  | it :: rest => by
    simp only [takeUntilStop, takeUntilStop_none parse rest, List.map_cons]

theorem takeUntilStop_noStop (parse : RawItem → GachaRecord) (t : String) :
    ∀ items : List RawItem, noStopIn t items →
      takeUntilStop parse (some t) items = (items.map parse, false)
  | [], _ => rfl
  | it :: rest, h => by
    have h1 : ¬(it.seqId.getD "" = t) := h it (List.mem_cons_self it rest)
    have h2 : noStopIn t rest := fun x hx => h x (List.mem_cons_of_mem it hx)
    simp only [takeUntilStop, if_neg h1,
      takeUntilStop_noStop parse t rest h2, List.map_cons]

theorem takeUntilStop_hit (parse : RawItem → GachaRecord) (t : String) :
    ∀ (items1 : List RawItem) (sIt : RawItem) (items2 : List RawItem),
      noStopIn t items1 → itemSeqId sIt = t →
      takeUntilStop parse (some t) (items1 ++ sIt :: items2) = (items1.map parse, true)
  | [], sIt, items2, _, hs => by
    have hs2 : sIt.seqId.getD "" = t := hs
    simp [takeUntilStop, hs2]
  | it :: items1, sIt, items2, h, hs => by
    have h1 : ¬(it.seqId.getD "" = t) := h it (List.mem_cons_self it items1)
    have h2 : noStopIn t items1 := fun x hx => h x (List.mem_cons_of_mem it hx)
    have ih := takeUntilStop_hit parse t items1 sIt items2 h2 hs
    simp only [List.cons_append, takeUntilStop, if_neg h1, List.append_eq, ih,
      List.map_cons]

theorem crawlLoop_cons (parse : RawItem → GachaRecord) (em : String)
    (stop : Option String) (p : ApiPage) (rest : List ApiPage)
    (cursor : Option String) (acc : List GachaRecord) :
    crawlLoop parse em stop (p :: rest) cursor acc =
      (if p.code = 0 then
        match p.list with
        | none => ⟨.ok acc, [cursor]⟩
        | some [] => ⟨.ok acc, [cursor]⟩
        | some (it :: its) =>
          match takeUntilStop parse stop (it :: its) with
          | (newRecs, true) => ⟨.ok (acc ++ newRecs), [cursor]⟩
          | (newRecs, false) =>
            match (acc ++ newRecs).getLast? with
            | none => ⟨.ok (acc ++ newRecs), [cursor]⟩
            | some last =>
              if 10000 < (acc ++ newRecs).length then ⟨.ok (acc ++ newRecs), [cursor]⟩
              else if p.hasMore = some false then ⟨.ok (acc ++ newRecs), [cursor]⟩
              else
                ⟨(crawlLoop parse em stop rest (some last.seq_id) (acc ++ newRecs)).result,
                 cursor :: (crawlLoop parse em stop rest (some last.seq_id) (acc ++ newRecs)).requests⟩
      else ⟨.error (p.msg.getD em), [cursor]⟩) := rfl

theorem crawl_sentinel_aux (parse : RawItem → GachaRecord) (em t : String) :
    ∀ (pre : List ApiPage) (pm : ApiPage) (rest : List ApiPage)
      (items1 items2 : List RawItem) (sIt : RawItem)
      (cursor : Option String) (acc : List GachaRecord),
      (∀ p ∈ pre, contPage p ∧ noStopIn t (pageItems p)) →
      acc.length + (pagesItems pre).length ≤ 10000 →
      pm.code = 0 → pm.list = some (items1 ++ sIt :: items2) →
      noStopIn t items1 → itemSeqId sIt = t →
      (crawlLoop parse em (some t) (pre ++ pm :: rest) cursor acc).result
        = .ok (acc ++ (pagesItems pre ++ items1).map parse)
  | [], pm, rest, items1, items2, sIt, cursor, acc, _, _, hc, hl, h1, hs => by
    obtain ⟨x, xs, hxs⟩ : ∃ x xs, items1 ++ sIt :: items2 = x :: xs := by
      cases items1 with
      | nil => exact ⟨sIt, items2, rfl⟩
      | cons a b => exact ⟨a, b ++ sIt :: items2, by simp⟩
    have htus : takeUntilStop parse (some t) (x :: xs) = (items1.map parse, true) := by
      rw [← hxs]; exact takeUntilStop_hit parse t items1 sIt items2 h1 hs
    rw [List.nil_append, crawlLoop_cons, if_pos hc, hl, hxs]
    simp [htus, pagesItems]
  | p :: pre, pm, rest, items1, items2, sIt, cursor, acc, hpre, hlen, hc, hl, h1, hs => by
    obtain ⟨⟨hc0, hm, l, hpl, hlne⟩, hnostop⟩ := hpre p (List.mem_cons_self p pre)
    have hpre2 : ∀ q ∈ pre, contPage q ∧ noStopIn t (pageItems q) :=
      fun q hq => hpre q (List.mem_cons_of_mem p hq)
    obtain ⟨x, xs, hxs⟩ : ∃ x xs, l = x :: xs := by
      cases l with
      | nil => exact absurd rfl hlne
      | cons a b => exact ⟨a, b, rfl⟩
    have hitems : pageItems p = l := by simp [pageItems, hpl]
    have hlen2 : acc.length + l.length + (pagesItems pre).length ≤ 10000 := by
      have := hlen
      simp only [pagesItems, hitems, List.length_append] at this
      omega
    have htus : takeUntilStop parse (some t) (x :: xs) = (l.map parse, false) := by
      rw [← hxs]
      exact takeUntilStop_noStop parse t l (hitems ▸ hnostop)
    obtain ⟨g, hg⟩ : ∃ g, (acc ++ l.map parse).getLast? = some g := by
      rw [hxs, List.map_cons, List.getLast?_append_cons]
      exact Option.isSome_iff_exists.mp (by simp [List.getLast?_isSome])
    have hcap : ¬(10000 < (acc ++ l.map parse).length) := by
      simp only [List.length_append, List.length_map]
      omega
    have ih := crawl_sentinel_aux parse em t pre pm rest items1 items2 sIt
      (some g.seq_id) (acc ++ l.map parse) hpre2
      (by simp only [List.length_append, List.length_map]; omega) hc hl h1 hs
    rw [List.cons_append, crawlLoop_cons, if_pos hc0, hpl, hxs]
    simp only [htus, hg, if_neg hcap, if_neg hm, ih, pagesItems, hitems]
    simp [List.append_assoc]

/-! ## C1: sentinel termination of the crawl -/

/-- C1: for every crawl of one pool whose served pages consist of sentinel-free
continuing pages followed by a page containing the stop-sentinel record, the
crawler returns exactly the records encountered before the sentinel record
in fetch order, excluding the sentinel record and everything after it; the
sentinel is checked before each record is appended, so the records of the
sentinel page before the sentinel are kept and the sentinel record itself is
not. -/
theorem C1_crawl_sentinel_stop (pool_type t : String)
    (pre : List ApiPage) (pm : ApiPage) (rest : List ApiPage)
    (items1 items2 : List RawItem) (sIt : RawItem)
    (hpre : ∀ p ∈ pre, contPage p ∧ noStopIn t (pageItems p))
    (hcap : (pagesItems pre).length ≤ 10000)
    (hc : pm.code = 0) (hl : pm.list = some (items1 ++ sIt :: items2))
    (h1 : noStopIn t items1) (hs : itemSeqId sIt = t) :
    (fetch_char_records pool_type (some t) (pre ++ pm :: rest)).result
      = .ok ((pagesItems pre ++ items1).map (parse_char_item pool_type)) := by
  have h := crawl_sentinel_aux (parse_char_item pool_type) "获取寻访记录失败" t
    pre pm rest items1 items2 sIt none [] hpre (by simpa using hcap) hc hl h1 hs
  simpa [fetch_char_records] using h

/-- Concrete instance of C1, matching the testable property of the spec:
pages A = (seq 1, seq 2), B = (seq 3, seq 4), C = (seq 5, seq 6) and stop
sentinel 3 yield exactly the records of A. -/
theorem C1_crawl_sentinel_stop_witness :
    (∀ p ∈ [ApiPage.mk 0 none (some [⟨some "1", none, none, none, none, none, none, none, none⟩,
        ⟨some "2", none, none, none, none, none, none, none, none⟩]) (some true)],
      contPage p ∧ noStopIn "3" (pageItems p)) ∧
    (fetch_char_records "T" (some "3")
      [ApiPage.mk 0 none (some [⟨some "1", none, none, none, none, none, none, none, none⟩,
        ⟨some "2", none, none, none, none, none, none, none, none⟩]) (some true),
       ApiPage.mk 0 none (some [⟨some "3", none, none, none, none, none, none, none, none⟩,
        ⟨some "4", none, none, none, none, none, none, none, none⟩]) (some true),
       ApiPage.mk 0 none (some [⟨some "5", none, none, none, none, none, none, none, none⟩,
        ⟨some "6", none, none, none, none, none, none, none, none⟩]) (some false)]).result
      = .ok ([⟨some "1", none, none, none, none, none, none, none, none⟩,
        ⟨some "2", none, none, none, none, none, none, none, none⟩].map (parse_char_item "T")) := by
  constructor
  · intro p hp
    simp only [List.mem_singleton] at hp
    subst hp
    exact ⟨⟨rfl, by simp, ⟨_, rfl, by simp⟩⟩, by simp [noStopIn, pageItems, itemSeqId]⟩
  · have h := C1_crawl_sentinel_stop "T" "3"
      [ApiPage.mk 0 none (some [⟨some "1", none, none, none, none, none, none, none, none⟩,
        ⟨some "2", none, none, none, none, none, none, none, none⟩]) (some true)]
      (ApiPage.mk 0 none (some [⟨some "3", none, none, none, none, none, none, none, none⟩,
        ⟨some "4", none, none, none, none, none, none, none, none⟩]) (some true))
      [ApiPage.mk 0 none (some [⟨some "5", none, none, none, none, none, none, none, none⟩,
        ⟨some "6", none, none, none, none, none, none, none, none⟩]) (some false)]
      [] [⟨some "4", none, none, none, none, none, none, none, none⟩]
      ⟨some "3", none, none, none, none, none, none, none, none⟩
      (by intro p hp
          simp only [List.mem_singleton] at hp
          subst hp
          exact ⟨⟨rfl, by simp, ⟨_, rfl, by simp⟩⟩, by simp [noStopIn, pageItems, itemSeqId]⟩)
      (by decide) rfl rfl (by simp [noStopIn]) rfl
    simpa [pagesItems, pageItems] using h

/-! ## C5: exhaustion termination and cursor advance -/

theorem crawl_exhaust_aux (parse : RawItem → GachaRecord) (em : String)
    (hseq : ∀ it, (parse it).seq_id = itemSeqId it) :
    ∀ (init : List ApiPage) (plast : ApiPage) (cursor : Option String)
      (acc : List GachaRecord),
      (∀ p ∈ init, contPage p) →
      acc.length + (pagesItems init).length ≤ 10000 →
      plast.code = 0 →
      ((∃ l, plast.list = some l ∧ l ≠ [] ∧ plast.hasMore = some false) ∨
        plast.list = none ∨ plast.list = some []) →
      crawlLoop parse em none (init ++ [plast]) cursor acc
        = ⟨.ok (acc ++ (pagesItems (init ++ [plast])).map parse),
           cursor :: nextCursors init⟩
  | [], plast, cursor, acc, _, _, hc, hlast => by
    rcases hlast with ⟨l, hl, hlne, hmore⟩ | hl | hl
    · obtain ⟨x, xs, hxs⟩ : ∃ x xs, l = x :: xs := by
        cases l with
        | nil => exact absurd rfl hlne
        | cons a b => exact ⟨a, b, rfl⟩
      subst hxs
      rw [List.nil_append, crawlLoop_cons, if_pos hc, hl]
      have hpi : pagesItems [plast] = x :: xs := by simp [pagesItems, pageItems, hl]
      rw [hpi]
      simp only [takeUntilStop_none, hmore, nextCursors]
      split
      · simp
      · simp
    · rw [List.nil_append, crawlLoop_cons, if_pos hc, hl]
      simp [pagesItems, pageItems, hl, nextCursors]
    · rw [List.nil_append, crawlLoop_cons, if_pos hc, hl]
      simp [pagesItems, pageItems, hl, nextCursors]
  | p :: init2, plast, cursor, acc, hinit, hlen, hc, hlast => by
    obtain ⟨hc0, hm, l, hpl, hlne⟩ := hinit p (List.mem_cons_self p init2)
    have hinit2 : ∀ q ∈ init2, contPage q :=
      fun q hq => hinit q (List.mem_cons_of_mem p hq)
    obtain ⟨x, xs, hxs⟩ : ∃ x xs, l = x :: xs := by
      cases l with
      | nil => exact absurd rfl hlne
      | cons a b => exact ⟨a, b, rfl⟩
    subst hxs
    obtain ⟨li, hli⟩ : ∃ li, (x :: xs).getLast? = some li :=
      Option.isSome_iff_exists.mp (by simp [List.getLast?_isSome])
    have hitems : pageItems p = x :: xs := by simp [pageItems, hpl]
    have hlen2 : acc.length + (x :: xs).length + (pagesItems init2).length ≤ 10000 := by
      have h := hlen
      simp only [pagesItems, hitems, List.length_append] at h
      omega
    have hg : (acc ++ (x :: xs).map parse).getLast? = some (parse li) := by
      rw [List.getLast?_append_of_ne_nil _ (by simp), getLast?_map_eq, hli]
      rfl
    have hcap : ¬(10000 < (acc ++ (x :: xs).map parse).length) := by
      simp only [List.length_append, List.length_map]
      omega
    have ih := crawl_exhaust_aux parse em hseq init2 plast (some ((parse li).seq_id))
      (acc ++ (x :: xs).map parse) hinit2
      (by simp only [List.length_append, List.length_map]; omega) hc hlast
    have hcursor : (parse li).seq_id = pageLastSeq p := by
      rw [hseq li]
      simp [pageLastSeq, hitems, hli]
    have ih2 : crawlLoop parse em none (init2 ++ [plast]) (some (pageLastSeq p))
        (acc ++ parse x :: List.map parse xs)
        = ⟨.ok (acc ++ parse x ::
            (List.map parse xs ++ List.map parse (pagesItems (init2 ++ [plast])))),
           some (pageLastSeq p) :: nextCursors init2⟩ := by
      rw [← hcursor]
      simpa [List.append_assoc] using ih
    rw [List.cons_append, crawlLoop_cons, if_pos hc0, hpl]
    simp only [takeUntilStop_none, hg, if_neg hcap, if_neg hm, nextCursors,
      pagesItems, hitems, hcursor]
    simp [ih2, List.append_assoc]

/-- C5: for every crawl of one pool with no stop sentinel whose served pages
are continuing pages followed by a final page that carries hasMore = false
(or an empty or missing list), the crawler returns the concatenation of the
records of all fetched pages and issues no request beyond those pages; the
first request omits the seq_id cursor and each following request carries the
seqId of the last record of the page fetched just before it. -/
theorem C5_crawl_exhaustion (pool_type : String)
    (init : List ApiPage) (plast : ApiPage)
    (hinit : ∀ p ∈ init, contPage p)
    (hcap : (pagesItems init).length ≤ 10000)
    (hc : plast.code = 0)
    (hlast : (∃ l, plast.list = some l ∧ l ≠ [] ∧ plast.hasMore = some false) ∨
      plast.list = none ∨ plast.list = some []) :
    fetch_char_records pool_type none (init ++ [plast])
      = ⟨.ok ((pagesItems (init ++ [plast])).map (parse_char_item pool_type)),
         none :: nextCursors init⟩ := by
  have h := crawl_exhaust_aux (parse_char_item pool_type) "获取寻访记录失败"
    (fun it => rfl) init plast none [] hinit (by simpa using hcap) hc hlast
  simpa [fetch_char_records] using h

/-- Concrete instance of C5: two full pages, the second with hasMore = false;
the crawler returns all four records, requests the first page without a
cursor and the second with the seqId of the last record of the first page,
and issues no third request. -/
theorem C5_crawl_exhaustion_witness :
    (∀ p ∈ [ApiPage.mk 0 none (some [⟨some "1", none, none, none, none, none, none, none, none⟩,
        ⟨some "2", none, none, none, none, none, none, none, none⟩]) (some true)],
      contPage p) ∧
    fetch_char_records "T" none
      [ApiPage.mk 0 none (some [⟨some "1", none, none, none, none, none, none, none, none⟩,
        ⟨some "2", none, none, none, none, none, none, none, none⟩]) (some true),
       ApiPage.mk 0 none (some [⟨some "3", none, none, none, none, none, none, none, none⟩,
        ⟨some "4", none, none, none, none, none, none, none, none⟩]) (some false)]
      = ⟨.ok ([⟨some "1", none, none, none, none, none, none, none, none⟩,
          ⟨some "2", none, none, none, none, none, none, none, none⟩,
          ⟨some "3", none, none, none, none, none, none, none, none⟩,
          ⟨some "4", none, none, none, none, none, none, none, none⟩].map
            (parse_char_item "T")),
         [none, some "2"]⟩ := by
  constructor
  · intro p hp
    simp only [List.mem_singleton] at hp
    subst hp
    exact ⟨rfl, by simp, ⟨_, rfl, by simp⟩⟩
  · have h := C5_crawl_exhaustion "T"
      [ApiPage.mk 0 none (some [⟨some "1", none, none, none, none, none, none, none, none⟩,
        ⟨some "2", none, none, none, none, none, none, none, none⟩]) (some true)]
      (ApiPage.mk 0 none (some [⟨some "3", none, none, none, none, none, none, none, none⟩,
        ⟨some "4", none, none, none, none, none, none, none, none⟩]) (some false))
      (by intro p hp
          simp only [List.mem_singleton] at hp
          subst hp
          exact ⟨rfl, by simp, ⟨_, rfl, by simp⟩⟩)
      (by decide)
      rfl
      (Or.inl ⟨_, rfl, by simp, rfl⟩)
    simpa [pagesItems, pageItems, nextCursors, pageLastSeq, itemSeqId] using h

/-! ## C6: the 10000-record safety cap -/

theorem crawl_cap_aux (parse : RawItem → GachaRecord) (em : String) :
    ∀ (ps : List ApiPage) (cursor : Option String) (acc : List GachaRecord),
      (∀ p ∈ ps, contPage p) →
      acc.length ≤ 10000 →
      10000 < acc.length + (pagesItems ps).length →
      ∃ k, 1 ≤ k ∧ k ≤ ps.length ∧
        (crawlLoop parse em none ps cursor acc).result
          = .ok (acc ++ (pagesItems (ps.take k)).map parse) ∧
        10000 < acc.length + (pagesItems (ps.take k)).length ∧
        acc.length + (pagesItems (ps.take (k - 1))).length ≤ 10000
  | [], cursor, acc, _, hacc, htot => by
    simp only [pagesItems, List.length_nil] at htot
    omega
  | p :: ps, cursor, acc, hgood, hacc, htot => by
    obtain ⟨hc0, hm, l, hpl, hlne⟩ := hgood p (List.mem_cons_self p ps)
    have hgood2 : ∀ q ∈ ps, contPage q :=
      fun q hq => hgood q (List.mem_cons_of_mem p hq)
    obtain ⟨x, xs, hxs⟩ : ∃ x xs, l = x :: xs := by
      cases l with
      | nil => exact absurd rfl hlne
      | cons a b => exact ⟨a, b, rfl⟩
    subst hxs
    obtain ⟨g, hg⟩ : ∃ g, (acc ++ (x :: xs).map parse).getLast? = some g := by
      rw [List.map_cons, List.getLast?_append_cons]
      exact Option.isSome_iff_exists.mp (by simp [List.getLast?_isSome])
    have hitems : pageItems p = x :: xs := by simp [pageItems, hpl]
    by_cases hcap : 10000 < (acc ++ (x :: xs).map parse).length
    · refine ⟨1, le_refl 1, by simp, ?_, ?_, ?_⟩
      · rw [crawlLoop_cons, if_pos hc0, hpl]
        simp only [takeUntilStop_none, hg, if_pos hcap]
        simp [pagesItems, hitems]
      · simp only [List.take_succ_cons, List.take_zero, pagesItems, hitems,
          List.length_append, List.length_nil]
        simp only [List.length_append, List.length_map] at hcap
        omega
      · simpa using hacc
    · have hlen2 : acc.length + (x :: xs).length ≤ 10000 := by
        simp only [List.length_append, List.length_map] at hcap
        omega
      have htot2 : 10000 < (acc ++ (x :: xs).map parse).length + (pagesItems ps).length := by
        simp only [pagesItems, hitems, List.length_append, List.length_map] at htot ⊢
        omega
      obtain ⟨k, hk1, hk2, hres, hbig, hsmall⟩ :=
        crawl_cap_aux parse em ps (some g.seq_id) (acc ++ (x :: xs).map parse)
          hgood2 (by simpa using hlen2) htot2
      refine ⟨k + 1, by omega, by simpa using Nat.succ_le_succ hk2, ?_, ?_, ?_⟩
      · rw [crawlLoop_cons, if_pos hc0, hpl]
        simp only [takeUntilStop_none, hg, if_neg hcap, if_neg hm, hres]
        simp [List.take_succ_cons, pagesItems, hitems, List.append_assoc]
      · simp only [List.take_succ_cons, pagesItems, hitems, List.length_append] at hbig ⊢
        simp only [List.length_append, List.length_map] at hbig
        omega
      · have hk0 : k + 1 - 1 = (k - 1) + 1 := by omega
        rw [hk0]
        simp only [List.take_succ_cons, pagesItems, hitems, List.length_append] at hsmall ⊢
        simp only [List.length_append, List.length_map] at hsmall
        omega

/-- C6: for every crawl of one pool with no sentinel against continuing pages
holding more than 10000 records in total, the loop terminates by the safety
cap: it consumes some prefix of k pages whose records exceed 10000 while the
first k-1 pages do not, and returns those records as a success, not an
error. The crawlLoop function itself is total, so every crawl terminates. -/
theorem C6_crawl_safety_cap (pool_type : String) (ps : List ApiPage)
    (hgood : ∀ p ∈ ps, contPage p)
    (htot : 10000 < (pagesItems ps).length) :
    ∃ k, 1 ≤ k ∧ k ≤ ps.length ∧
      (fetch_char_records pool_type none ps).result
        = .ok ((pagesItems (ps.take k)).map (parse_char_item pool_type)) ∧
      10000 < (pagesItems (ps.take k)).length ∧
      (pagesItems (ps.take (k - 1))).length ≤ 10000 := by
  obtain ⟨k, hk1, hk2, hres, hbig, hsmall⟩ :=
    crawl_cap_aux (parse_char_item pool_type) "获取寻访记录失败" ps none []
      hgood (by simp) (by simpa using htot)
  exact ⟨k, hk1, hk2, by simpa [fetch_char_records] using hres,
    by simpa using hbig, by simpa using hsmall⟩

/-- A page of 5001 records used by the cap instance. -/
def capItem : RawItem := ⟨some "s", none, none, none, none, none, none, none, none⟩

/-- One synthetic page holding 5001 records and claiming more data. -/
def capPage : ApiPage := ⟨0, none, some (List.replicate 5001 capItem), some true⟩

/-- Two such pages: 10002 records in total. -/
def capPages : List ApiPage := [capPage, capPage]

/-- Concrete instance of C6: two pages of 5001 records each exceed the cap,
so the crawler stops with a success after the page that crosses 10000. -/
theorem C6_crawl_safety_cap_witness :
    (∀ p ∈ capPages, contPage p) ∧
    10000 < (pagesItems capPages).length ∧
    ∃ k, 1 ≤ k ∧ k ≤ capPages.length ∧
      (fetch_char_records "T" none capPages).result
        = .ok ((pagesItems (capPages.take k)).map (parse_char_item "T")) ∧
      10000 < (pagesItems (capPages.take k)).length ∧
      (pagesItems (capPages.take (k - 1))).length ≤ 10000 := by
  have hne : List.replicate 5001 capItem ≠ [] :=
    List.ne_nil_of_length_pos (by rw [List.length_replicate]; norm_num)
  have hgood : ∀ p ∈ capPages, contPage p := by
    intro p hp
    simp only [capPages, List.mem_cons, List.not_mem_nil, or_false] at hp
    have hmore : capPage.hasMore ≠ some false := by
      intro hcontra
      rw [show capPage.hasMore = some true from rfl] at hcontra
      cases hcontra
    rcases hp with h | h <;> rw [h] <;> exact ⟨rfl, hmore, ⟨_, rfl, hne⟩⟩
  have htot : 10000 < (pagesItems capPages).length := by
    have hitems : pagesItems capPages
        = List.replicate 5001 capItem ++ (List.replicate 5001 capItem ++ []) := rfl
    rw [hitems, List.length_append, List.length_append, List.length_replicate,
      List.length_nil]
    norm_num
  exact ⟨hgood, htot, C6_crawl_safety_cap "T" capPages hgood htot⟩

/-! ## C2: the update-then-insert upsert deduplicates -/

theorem rowMatches_iff (uid : String) (r : ApiGachaRecord) (row : GachaPullRow) :
    rowMatches uid r row = true ↔
      row.uid = uid ∧ row.seq_id = some r.seq_id ∧ row.pool_type = some r.pool_type := by
  simp [rowMatches, Bool.and_eq_true, and_assoc]

theorem rowMatches_both (uid : String) (r r' : ApiGachaRecord) (row : GachaPullRow)
    (h : rowMatches uid r row = true) (h' : rowMatches uid r' row = true) :
    recordKey r' = recordKey r := by
  obtain ⟨_, h2, h3⟩ := (rowMatches_iff uid r row).mp h
  obtain ⟨_, h2', h3'⟩ := (rowMatches_iff uid r' row).mp h'
  have hseq : r'.seq_id = r.seq_id := Option.some.inj (h2'.symm.trans h2)
  have hpool : r'.pool_type = r.pool_type := Option.some.inj (h3'.symm.trans h3)
  simp [recordKey, hseq, hpool]

theorem rowMatches_insertedRow_self (uid : String) (r : ApiGachaRecord) :
    rowMatches uid r (insertedRow uid r) = true := by
  simp [rowMatches, insertedRow]

theorem rowMatches_insertedRow_ne (uid : String) (r r' : ApiGachaRecord)
    (hk : recordKey r' ≠ recordKey r) :
    rowMatches uid r' (insertedRow uid r) = false := by
  rw [Bool.eq_false_iff]
  intro hcontra
  exact hk (rowMatches_both uid r r' (insertedRow uid r)
    (rowMatches_insertedRow_self uid r) hcontra)

theorem rowMatches_update_if (uid : String) (r r' : ApiGachaRecord)
    (row : GachaPullRow) :
    rowMatches uid r' (if rowMatches uid r row then updateRowFields r row else row)
      = rowMatches uid r' row := by
  split
  · rfl
  · rfl

theorem filter_saveStep_map (uid : String) (r r' : ApiGachaRecord) :
    ∀ db : List GachaPullRow,
      (db.map fun row => if rowMatches uid r row then updateRowFields r row else row).filter
          (rowMatches uid r')
        = (db.filter (rowMatches uid r')).map
            fun row => if rowMatches uid r row then updateRowFields r row else row
  | [] => rfl
  | row :: db => by
    simp only [List.map_cons, List.filter_cons, rowMatches_update_if uid r r' row,
      filter_saveStep_map uid r r' db]
    by_cases h : rowMatches uid r' row = true
    · simp [h]
    · simp [h]

theorem updateRowFields_matching (uid : String) (r : ApiGachaRecord)
    (row : GachaPullRow) (h : rowMatches uid r row = true) :
    updateRowFields r row = insertedRow uid r := by
  obtain ⟨h1, h2, h3⟩ := (rowMatches_iff uid r row).mp h
  cases row
  simp_all [updateRowFields, insertedRow]

theorem saveStep_filter_ne (uid : String) (r r' : ApiGachaRecord)
    (hk : recordKey r' ≠ recordKey r) (db : List GachaPullRow) :
    (saveStep uid db r).filter (rowMatches uid r') = db.filter (rowMatches uid r') := by
  have hmapid : (db.filter (rowMatches uid r')).map
      (fun row => if rowMatches uid r row then updateRowFields r row else row)
      = db.filter (rowMatches uid r') := by
    have hid : ∀ row ∈ db.filter (rowMatches uid r'),
        (if rowMatches uid r row then updateRowFields r row else row) = row := by
      intro row hrow
      have hr' : rowMatches uid r' row = true := (List.mem_filter.mp hrow).2
      have hr : ¬(rowMatches uid r row = true) :=
        fun hcontra => hk (rowMatches_both uid r r' row hcontra hr')
      simp [hr]
    rw [List.map_congr_left hid]
    exact List.map_id' _
  simp only [saveStep]
  split
  · rw [List.filter_append, filter_saveStep_map, hmapid]
    simp [rowMatches_insertedRow_ne uid r r' hk]
  · rw [filter_saveStep_map, hmapid]

theorem saveStep_filter_self (uid : String) (r : ApiGachaRecord)
    (db : List GachaPullRow)
    (hle : (db.filter (rowMatches uid r)).length ≤ 1) :
    (saveStep uid db r).filter (rowMatches uid r) = [insertedRow uid r] := by
  simp only [saveStep]
  by_cases h0 : (db.filter (rowMatches uid r)).length = 0
  · have hnil : db.filter (rowMatches uid r) = [] := List.length_eq_zero.mp h0
    rw [if_pos h0, List.filter_append, filter_saveStep_map, hnil]
    simp [rowMatches_insertedRow_self]
  · have h1 : (db.filter (rowMatches uid r)).length = 1 := by omega
    obtain ⟨row0, hrow0⟩ := List.length_eq_one.mp h1
    have hmem : row0 ∈ db.filter (rowMatches uid r) := by
      rw [hrow0]; exact List.mem_singleton_self row0
    have hm : rowMatches uid r row0 = true := (List.mem_filter.mp hmem).2
    rw [if_neg h0, filter_saveStep_map, hrow0]
    simp only [List.map_cons, List.map_nil, if_pos hm]
    rw [updateRowFields_matching uid r row0 hm]

theorem foldl_saveStep_filter_ne (uid : String) (r0 : ApiGachaRecord) :
    ∀ (rest : List ApiGachaRecord) (db : List GachaPullRow),
      (∀ r' ∈ rest, recordKey r0 ≠ recordKey r') →
      (rest.foldl (saveStep uid) db).filter (rowMatches uid r0)
        = db.filter (rowMatches uid r0)
  | [], _, _ => rfl
  | r1 :: rest, db, h => by
    rw [List.foldl_cons,
      foldl_saveStep_filter_ne uid r0 rest (saveStep uid db r1)
        (fun x hx => h x (List.mem_cons_of_mem r1 hx)),
      saveStep_filter_ne uid r1 r0 (h r1 (List.mem_cons_self r1 rest)) db]

theorem save_once (uid : String) :
    ∀ (records : List ApiGachaRecord) (db : List GachaPullRow),
      (records.map recordKey).Nodup →
      (∀ r ∈ records, (db.filter (rowMatches uid r)).length ≤ 1) →
      ∀ r ∈ records,
        (save_gacha_records db uid records).filter (rowMatches uid r)
          = [insertedRow uid r]
  | [], _, _, _ => by intro r hr; cases hr
  | r0 :: rest, db, hnodup, hdb => by
    intro r hr
    have hpair : (∀ x ∈ rest, ¬recordKey x = recordKey r0) ∧
        (rest.map recordKey).Nodup := by simpa using hnodup
    have hnodup2 : (rest.map recordKey).Nodup := hpair.2
    have hne : ∀ r' ∈ rest, recordKey r0 ≠ recordKey r' :=
      fun r' hr' hcontra => hpair.1 r' hr' hcontra.symm
    have hunfold : save_gacha_records db uid (r0 :: rest)
        = rest.foldl (saveStep uid) (saveStep uid db r0) := rfl
    rcases List.mem_cons.mp hr with hr0 | hr2
    · subst hr0
      rw [hunfold, foldl_saveStep_filter_ne uid r rest (saveStep uid db r) hne]
      exact saveStep_filter_self uid r db (hdb r (List.mem_cons_self r rest))
    · have hdb2 : ∀ r' ∈ rest,
          ((saveStep uid db r0).filter (rowMatches uid r')).length ≤ 1 := by
        intro r' hr'
        rw [saveStep_filter_ne uid r0 r' (fun hcontra => hne r' hr' hcontra.symm) db]
        exact hdb r' (List.mem_cons_of_mem r0 hr')
      rw [hunfold]
      exact save_once uid rest (saveStep uid db r0) hnodup2 hdb2 r hr2

/-- C2: for every batch of records with pairwise distinct identities
(uid, seq_id, pool_type) and every database holding at most one row per such
identity, persisting the batch twice with the update-then-insert upserter
leaves exactly one row per identity, and that row carries exactly the
values of the batch record (banner id and name, item name and id, rarity,
pulled_at, free and new flags): the rows matching an identity form precisely
the singleton of the row the batch would insert. -/
theorem C2_save_twice_upsert (uid : String) (db : List GachaPullRow)
    (records : List ApiGachaRecord)
    (hnodup : (records.map recordKey).Nodup)
    (hdb : ∀ r ∈ records, (db.filter (rowMatches uid r)).length ≤ 1) :
    ∀ r ∈ records,
      (save_gacha_records (save_gacha_records db uid records) uid records).filter
          (rowMatches uid r) = [insertedRow uid r] := by
  have h1 := save_once uid records db hnodup hdb
  have hdb1 : ∀ r ∈ records,
      ((save_gacha_records db uid records).filter (rowMatches uid r)).length ≤ 1 := by
    intro r hr
    rw [h1 r hr]
    simp
  exact save_once uid records (save_gacha_records db uid records) hnodup hdb1

/-- Concrete instance of C2: saving one record twice into an empty table
leaves exactly one matching row with the values of the record. -/
theorem C2_save_twice_upsert_witness :
    (([ApiGachaRecord.mk "N" (some "id7") 5 "p1" "PoolOne" "7" 123 "T" false true].map
        recordKey).Nodup) ∧
    (∀ r ∈ [ApiGachaRecord.mk "N" (some "id7") 5 "p1" "PoolOne" "7" 123 "T" false true],
      (([] : List GachaPullRow).filter (rowMatches "u1" r)).length ≤ 1) ∧
    ∀ r ∈ [ApiGachaRecord.mk "N" (some "id7") 5 "p1" "PoolOne" "7" 123 "T" false true],
      (save_gacha_records
          (save_gacha_records [] "u1"
            [ApiGachaRecord.mk "N" (some "id7") 5 "p1" "PoolOne" "7" 123 "T" false true])
          "u1"
          [ApiGachaRecord.mk "N" (some "id7") 5 "p1" "PoolOne" "7" 123 "T" false true]).filter
        (rowMatches "u1" r) = [insertedRow "u1" r] := by
  refine ⟨by simp, by simp, ?_⟩
  exact C2_save_twice_upsert "u1" []
    [ApiGachaRecord.mk "N" (some "id7") 5 "p1" "PoolOne" "7" 123 "T" false true]
    (by simp) (by simp)

/-! ## C9: merge-not-clobber token semantics of the account upsert -/

/-- C9: for every account upsert onto an existing row, each of the three
token columns ends up holding the incoming value when it is present and
non-empty, and the previously stored value otherwise; in particular an
absent (none) or empty incoming token never overwrites a stored non-empty
token. -/
theorem C9_upsert_account_tokens (acc : AccountRow) (uid : String)
    (role_id nick_name server_id : Option String) (channel_id : Option Int)
    (user_token oauth_token u8_token : Option String) :
    ((db_upsert_account (some acc) uid role_id nick_name server_id channel_id
        user_token oauth_token u8_token).user_token
      = if user_token.getD "" = "" then acc.user_token
        else some (user_token.getD "")) ∧
    ((db_upsert_account (some acc) uid role_id nick_name server_id channel_id
        user_token oauth_token u8_token).oauth_token
      = if oauth_token.getD "" = "" then acc.oauth_token
        else some (oauth_token.getD "")) ∧
    ((db_upsert_account (some acc) uid role_id nick_name server_id channel_id
        user_token oauth_token u8_token).u8_token
      = if u8_token.getD "" = "" then acc.u8_token
        else some (u8_token.getD "")) := by
  refine ⟨?_, ?_, ?_⟩
  · by_cases h : user_token.getD "" = "" <;> simp [db_upsert_account, h]
  · by_cases h : oauth_token.getD "" = "" <;> simp [db_upsert_account, h]
  · by_cases h : u8_token.getD "" = "" <;> simp [db_upsert_account, h]

/-- Concrete instance of the token-merge theorem: an upsert with an absent
user token, an empty oauth token and a fresh non-empty u8 token keeps the
stored user and oauth tokens and replaces the u8 token. -/
theorem C9_upsert_account_tokens_witness :
    ((db_upsert_account (some ⟨"u1", none, none, "1", none, some "keepU",
        some "keepO", some "oldU8"⟩) "u1" none none none none
        none (some "") (some "newU8")).user_token
      = if (none : Option String).getD "" = "" then some "keepU"
        else some ((none : Option String).getD "")) ∧
    ((db_upsert_account (some ⟨"u1", none, none, "1", none, some "keepU",
        some "keepO", some "oldU8"⟩) "u1" none none none none
        none (some "") (some "newU8")).oauth_token
      = if (some "" : Option String).getD "" = "" then some "keepO"
        else some ((some "" : Option String).getD "")) ∧
    ((db_upsert_account (some ⟨"u1", none, none, "1", none, some "keepU",
        some "keepO", some "oldU8"⟩) "u1" none none none none
        none (some "") (some "newU8")).u8_token
      = if (some "newU8" : Option String).getD "" = "" then some "oldU8"
        else some ((some "newU8" : Option String).getD "")) :=
  C9_upsert_account_tokens ⟨"u1", none, none, "1", none, some "keepU",
    some "keepO", some "oldU8"⟩ "u1" none none none none none (some "") (some "newU8")

/-! ## C4: manifest URL construction -/

theorem eq_append_of_getLast?_eq_some {α : Type} :
    ∀ (l : List α) (c : α), l.getLast? = some c → ∃ init, l = init ++ [c]
  | [], c, h => by simp at h
  | [a], c, h => by
    have : a = c := by simpa using h
    exact ⟨[], by rw [this]; simp⟩
  | a :: b :: l, c, h => by
    rw [List.getLast?_cons_cons] at h
    obtain ⟨init, hin⟩ := eq_append_of_getLast?_eq_some (b :: l) c h
    exact ⟨a :: init, by rw [hin]; rfl⟩

theorem ensureSlashManifest_suffix (l : List Char) :
    ('/' :: manifestFileName) <:+ ensureSlashManifest l := by
  unfold ensureSlashManifest
  split
  · next h =>
    obtain ⟨init, hin⟩ := eq_append_of_getLast?_eq_some l '/' h
    exact ⟨init, by rw [hin]; simp⟩
  · next h =>
    exact ⟨l, by simp⟩

theorem resolveVersion_of_trim_empty (version : String)
    (h : strTrim version = []) : resolveVersion version = resolveVersion "latest" := by
  rw [resolveVersion, if_pos h]
  decide

/-- C4: build_manifest_url maps the example base and version 2 to the
tag-addressed manifest URL; a base containing the literal version
placeholder has the version substituted verbatim with no tag insertion even
though the repository marker is present; a trailing manifest.json on the
base is stripped first; a version that trims to empty behaves exactly like
latest; and every successful result ends with /manifest.json. -/
theorem C4_build_manifest_url :
    build_manifest_url "https://cdn.example.com/endfield-cat-metadata/" "2"
      = .ok "https://cdn.example.com/endfield-cat-metadata@v2/manifest.json" ∧
    build_manifest_url "https://host.com/endfield-cat-metadata/files/\x7bversion\x7d/" "7"
      = .ok "https://host.com/endfield-cat-metadata/files/7/manifest.json" ∧
    build_manifest_url "https://cdn.example.com/endfield-cat-metadata/manifest.json" "2"
      = .ok "https://cdn.example.com/endfield-cat-metadata@v2/manifest.json" ∧
    (∀ base version : String, strTrim version = [] →
      build_manifest_url base version = build_manifest_url base "latest") ∧
    (∀ base version r, build_manifest_url base version = .ok r →
      "/manifest.json".toList <:+ r.toList) := by
  refine ⟨by rfl, by rfl, by rfl, ?_, ?_⟩
  · intro base version h
    rw [build_manifest_url, build_manifest_url, resolveVersion_of_trim_empty version h]
  · intro base version r h
    rw [build_manifest_url] at h
    split at h
    · cases h
    · have hr : r = String.mk (ensureSlashManifest
          (applyVersion (resolveVersion version)
            (stripManifestSuffix (strTrim base)))) := (Except.ok.inj h).symm
      rw [hr]
      exact ensureSlashManifest_suffix _

/-- Concrete discharge of the hypotheses of C4: the whitespace version
behaves like latest on the example base, and the suffix property holds on
the first concrete result. -/
theorem C4_build_manifest_url_witness :
    build_manifest_url "https://cdn.example.com/endfield-cat-metadata/" "  "
      = build_manifest_url "https://cdn.example.com/endfield-cat-metadata/" "latest" ∧
    "/manifest.json".toList <:+
      ("https://cdn.example.com/endfield-cat-metadata@v2/manifest.json" : String).toList := by
  constructor
  · exact C4_build_manifest_url.2.2.2.1
      "https://cdn.example.com/endfield-cat-metadata/" "  " (by decide)
  · exact C4_build_manifest_url.2.2.2.2
      "https://cdn.example.com/endfield-cat-metadata/" "2" _ C4_build_manifest_url.1

/-! ## C7: the verify phase of the incremental reconciler -/

/-- C7: an entry is queued for download exactly when the local file is
missing, the file is unreadable, or a non-empty manifest checksum differs
from the uppercased local digest (case-insensitive comparison, both sides
uppercased); a file whose digest matches its checksum is never queued, and
an entry with an empty checksum over an existing file is skipped for every
possible hash outcome, so no hash is consulted. -/
theorem C7_verify_phase_queue :
    (∀ (ex : Bool) (hres : Except String String) (c : String),
      needs_download ex hres (strToUpper c) = true ↔
        (ex = false ∨ (strToUpper c ≠ "" ∧
          ((∃ e, hres = .error e) ∨
            (∃ hv, hres = .ok hv ∧ strToUpper hv ≠ strToUpper c))))) ∧
    (∀ (hres : Except String String) (c : String), strToUpper c = "" →
      needs_download true hres (strToUpper c) = false) ∧
    (∀ (fileExists : String → Bool) (sha256 : String → Except String String)
        (e : ManEntry) (p : String), e.path = some p →
      verify_phase fileExists sha256 [e]
        = if needs_download (fileExists p) (sha256 p) (expectedChecksum e) then
            [(p, expectedChecksum e)]
          else []) := by
  refine ⟨?_, ?_, ?_⟩
  · intro ex hres c
    cases ex <;> cases hres <;> by_cases hc : strToUpper c = "" <;>
      simp [needs_download, hc, bne_iff_ne]
  · intro hres c hc
    simp [needs_download, hc]
  · intro fileExists sha256 e p hp
    simp only [verify_phase, List.foldl_cons, List.foldl_nil, hp]
    split
    · rfl
    · rfl

/-- Concrete discharge of the hypotheses of C7: a matching digest is not
queued, an empty checksum skips for both a hash success and a hash failure,
and a single mismatching entry is queued. -/
theorem C7_verify_phase_queue_witness :
    (needs_download true (.ok "ab12") (strToUpper "AB12") = true ↔
      (true = false ∨ (strToUpper "AB12" ≠ "" ∧
        ((∃ e, (Except.ok "ab12" : Except String String) = .error e) ∨
          (∃ hv, (Except.ok "ab12" : Except String String) = .ok hv ∧
            strToUpper hv ≠ strToUpper "AB12"))))) ∧
    needs_download true (.error "unreadable") (strToUpper "") = false ∧
    needs_download true (.ok "zz") (strToUpper "") = false ∧
    verify_phase (fun _ => true) (fun _ => .ok "AB") [ManEntry.mk (some "f2") (some "cd")]
      = if needs_download true (.ok "AB") (expectedChecksum (ManEntry.mk (some "f2") (some "cd")))
        then [("f2", expectedChecksum (ManEntry.mk (some "f2") (some "cd")))] else [] := by
  refine ⟨C7_verify_phase_queue.1 true (.ok "ab12") "AB12",
    C7_verify_phase_queue.2.1 (.error "unreadable") "" (by decide),
    C7_verify_phase_queue.2.1 (.ok "zz") "" (by decide),
    C7_verify_phase_queue.2.2 (fun _ => true) (fun _ => .ok "AB")
      (ManEntry.mk (some "f2") (some "cd")) "f2" rfl⟩

/-! ## C3: when the manifest sidecar is written -/

/-- C3 counterexample: a successful full-reset run over a one-entry manifest
writes the manifest sidecar first and downloads the file afterwards, so the
sidecar write is not preceded by all file downloads. -/
theorem C3_manifest_not_last_counterexample :
    (download_metadata_events (some "https://cdn.example.com/endfield-cat-metadata/")
        (.ok [some "a.json"]) (fun _ => true) []).1
      = [FsEvent.writeManifest, FsEvent.fetchFile "a.json", FsEvent.writeFile "a.json"] ∧
    ¬ manifestWrittenLast
      (download_metadata_events (some "https://cdn.example.com/endfield-cat-metadata/")
        (.ok [some "a.json"]) (fun _ => true) []).1 := by
  constructor
  · rfl
  · intro h
    have h20 := h ⟨0, by decide⟩ ⟨2, by decide⟩ (by decide) (by decide)
    simp at h20

theorem download_files_events_no_manifest (fileOk : String → Bool) :
    ∀ paths : List String,
      ∀ e ∈ (download_files_events fileOk paths).1, e ≠ FsEvent.writeManifest
  | [] => by intro e he; cases he
  | p :: rest => by
    intro e he
    by_cases h : fileOk p = true
    · simp only [download_files_events, if_pos h, List.mem_cons] at he
      rcases he with h1 | h1 | h1
      · subst h1; intro hcontra; cases hcontra
      · subst h1; intro hcontra; cases hcontra
      · exact download_files_events_no_manifest fileOk rest e h1
    · simp only [download_files_events, if_neg h, List.mem_singleton] at he
      subst he
      intro hcontra
      cases hcontra

theorem manifestWrittenLast_of_split (l₁ l₂ : List FsEvent)
    (h₁ : ∀ e ∈ l₁, e ≠ FsEvent.writeManifest)
    (h₂ : ∀ e ∈ l₂, eventIsFileWrite e = false) :
    manifestWrittenLast (l₁ ++ l₂) := by
  intro i j hi hj
  have hilen : ¬((i : Nat) < l₁.length) := by
    intro hcontra
    have hmem : (l₁ ++ l₂).get i ∈ l₁ := by
      rw [List.get_eq_getElem, List.getElem_append_left hcontra]
      exact List.getElem_mem _
    exact h₁ _ hmem hi
  have hjlen : (j : Nat) < l₁.length := by
    by_contra hcontra
    have hj2 : (j : Nat) - l₁.length < l₂.length := by
      have := j.isLt
      simp only [List.length_append] at this
      omega
    have hmem : (l₁ ++ l₂).get j ∈ l₂ := by
      rw [List.get_eq_getElem, List.getElem_append_right (by omega : l₁.length ≤ (j : Nat))]
      exact List.getElem_mem _
    rw [h₂ _ hmem] at hj
    cases hj
  omega

/-- C3 amended: in the incremental update run the manifest sidecar is
written only after every per-file download has succeeded — in every update
trace all data-file writes precede any manifest write — while the full-reset
run behaves otherwise: there the manifest is written first, before any file
download. -/
theorem C3_manifest_commit_order (base_url : Option String)
    (manifest : Except String (List ManEntry)) (fileExists : String → Bool)
    (sha256 : String → Except String String) (fileOk : String → Bool)
    (extraFiles : List String) (b : String) (entryPaths : List (Option String)) :
    manifestWrittenLast
      (update_metadata_events base_url manifest fileExists sha256 fileOk extraFiles).1 ∧
    ((download_metadata_events (some b) (.ok entryPaths) fileOk extraFiles).1).head?
      = some FsEvent.writeManifest := by
  constructor
  · cases base_url with
    | none => intro i j _ _; exact absurd i.isLt (by simp [update_metadata_events])
    | some _ =>
      cases manifest with
      | error e => intro i j _ _; exact absurd i.isLt (by simp [update_metadata_events])
      | ok entries =>
        simp only [update_metadata_events]
        split
        · next hok =>
          refine manifestWrittenLast_of_split _ [FsEvent.writeManifest] ?_ ?_
          · intro e he
            rw [List.mem_append] at he
            rcases he with he | he
            · exact download_files_events_no_manifest fileOk _ e he
            · rw [List.mem_map] at he
              obtain ⟨pth, _, hpe⟩ := he
              rw [← hpe]
              intro hcontra
              cases hcontra
          · intro e he
            rw [List.mem_singleton] at he
            rw [he]
            rfl
        · next hfail =>
          have hall : ∀ e ∈ (download_files_events fileOk
              ((verify_phase fileExists sha256 entries).map Prod.fst)).1,
              e ≠ FsEvent.writeManifest :=
            download_files_events_no_manifest fileOk _
          intro i j hi _
          exact absurd hi (hall _ (List.get_mem _ (↑i) i.isLt))
  · simp only [download_metadata_events]
    split
    · rfl
    · rfl

/-- Concrete instance of the commit-order theorem: an update run over one
entry and one extra file keeps every file write before the manifest write,
and a reset run writes the manifest first. -/
theorem C3_manifest_commit_order_witness :
    manifestWrittenLast
      (update_metadata_events (some "b") (.ok [ManEntry.mk (some "a.json") (some "ab")])
        (fun _ => false) (fun _ => .ok "AB") (fun _ => true) ["x.json"]).1 ∧
    ((download_metadata_events (some "b") (.ok [some "a.json"]) (fun _ => true)
        ["x.json"]).1).head? = some FsEvent.writeManifest :=
  C3_manifest_commit_order (some "b") (.ok [ManEntry.mk (some "a.json") (some "ab")])
    (fun _ => false) (fun _ => .ok "AB") (fun _ => true) ["x.json"] "b" [some "a.json"]

/-! ## C8: failure tolerance of the sync orchestrator -/

theorem syncFetchPhase_accountUpdateAttempted (env : SyncEnv) (mode : String)
    (b : Bool) : (syncFetchPhase env mode b).accountUpdateAttempted = b := by
  simp only [syncFetchPhase]
  repeat' split
  all_goals rfl

theorem syncFetchPhase_result_ok (env : SyncEnv) (mode : String) (b : Bool)
    (hsave : env.saveResp = .ok ()) :
    ∃ n, (syncFetchPhase env mode b).result = .ok (n, b) := by
  simp only [syncFetchPhase]
  repeat' split
  all_goals first
    | exact ⟨_, rfl⟩
    | simp_all

theorem syncFetchPhase_weaponCalls_of_error (env : SyncEnv) (mode : String)
    (b : Bool) (m : String) (hwp : env.weaponPoolsResp = .error m) :
    (syncFetchPhase env mode b).weaponCalls = [] := by
  simp only [syncFetchPhase]
  repeat' split
  all_goals simp_all

theorem syncFetchPhase_weaponCalls_ok (env : SyncEnv) (b : Bool)
    (pools rows : List (String × String))
    (hwp : env.weaponPoolsResp = .ok pools) (hrows : env.seqRowsResp = .ok rows) :
    (syncFetchPhase env "incremental" b).weaponCalls
      = pools.map fun pr => (pr.1, lastSeqLookup rows pr.1) := by
  simp only [syncFetchPhase]
  repeat' split
  all_goals simp_all

/-- A concrete account row with a stored oauth token. -/
def c8Account : AccountWithTokens :=
  ⟨"u1", none, none, some "1", none, none, some "tok", none⟩

/-- A run in which everything succeeds except listing the weapon pools. -/
def c8Env : SyncEnv :=
  { accountRow := .ok (some c8Account)
    u8TokenResp := .ok "u8"
    roleResp := .ok ⟨"u1", some "r1", some "nick", some 1⟩
    accountUpdateResp := .ok ()
    seqRowsResp := .ok []
    charFetch := fun _ _ => .ok []
    weaponPoolsResp := .error "weapon pool list down"
    weaponFetch := fun _ _ => .ok []
    saveResp := .ok () }

/-- C8 counterexample: a run whose token refresh, profile lookup and every
char-pool crawl succeed, but whose weapon-pool listing fails, still
completes with Ok — a third tolerated failure kind besides profile lookup
and single-pool crawls, so those two are not the only ones. -/
theorem C8_weapon_pool_list_failure_tolerated :
    c8Env.u8TokenResp = .ok "u8" ∧
    c8Env.roleResp = .ok ⟨"u1", some "r1", some "nick", some 1⟩ ∧
    (∀ pt st, c8Env.charFetch pt st = .ok []) ∧
    c8Env.weaponPoolsResp = .error "weapon pool list down" ∧
    (sync_gacha_by_token c8Env "u1" "full").result = .ok (0, true) := by
  exact ⟨rfl, rfl, fun _ _ => rfl, rfl, rfl⟩

/-- C8 amended: the fresh-u8-token failure is fatal with nothing crawled or
persisted; a profile-lookup failure is tolerated with the account row left
untouched, account_updated false, and the fetch phase still run; a failing
single pool is skipped while the other pools are crawled and their records
persisted; and additionally a failure listing the weapon pools is tolerated,
skipping every weapon crawl. -/
theorem C8_sync_failure_policy (env : SyncEnv) (uid mode : String)
    (acct : AccountWithTokens) (o : String)
    (hacct : env.accountRow = .ok (some acct))
    (hoauth : acct.oauth_token = some o) (hne : o.isEmpty = false) :
    (∀ e : String, env.u8TokenResp = .error e →
      sync_gacha_by_token env uid mode = noCallsTrace e) ∧
    (∀ t m : String, env.u8TokenResp = .ok t → env.roleResp = .error m →
      sync_gacha_by_token env uid mode = syncFetchPhase env mode false ∧
      (sync_gacha_by_token env uid mode).accountUpdateAttempted = false ∧
      (env.saveResp = .ok () →
        ∃ n, (sync_gacha_by_token env uid mode).result = .ok (n, false))) ∧
    (∀ (t m : String) (info : RoleInfo) (rs1 rs3 : List GachaRecord),
      env.u8TokenResp = .ok t → env.roleResp = .ok info →
      env.accountUpdateResp = .ok () →
      env.charFetch "E_CharacterGachaPoolType_Special" none = .ok rs1 →
      env.charFetch "E_CharacterGachaPoolType_Standard" none = .error m →
      env.charFetch "E_CharacterGachaPoolType_Beginner" none = .ok rs3 →
      env.weaponPoolsResp = .ok [] → env.saveResp = .ok () →
      (rs1 ++ rs3).isEmpty = false →
      (sync_gacha_by_token env uid "full").result = .ok ((rs1 ++ rs3).length, true) ∧
      (sync_gacha_by_token env uid "full").persisted
        = (rs1 ++ rs3).map gacha_to_api_record ∧
      (sync_gacha_by_token env uid "full").charCalls
        = [("E_CharacterGachaPoolType_Special", none),
           ("E_CharacterGachaPoolType_Standard", none),
           ("E_CharacterGachaPoolType_Beginner", none)]) ∧
    (∀ (t m : String) (info : RoleInfo),
      env.u8TokenResp = .ok t → env.roleResp = .ok info →
      env.accountUpdateResp = .ok () → env.weaponPoolsResp = .error m →
      env.saveResp = .ok () →
      (∃ n, (sync_gacha_by_token env uid "full").result = .ok (n, true)) ∧
      (sync_gacha_by_token env uid "full").weaponCalls = []) := by
  have hfilter : acct.oauth_token.filter (fun s => !s.isEmpty) = some o := by
    rw [hoauth]
    simp [Option.filter, hne]
  refine ⟨?_, ?_, ?_, ?_⟩
  · intro e hu8
    simp [sync_gacha_by_token, hacct, hfilter, hu8]
  · intro t m hu8 hrole
    have hrun : sync_gacha_by_token env uid mode = syncFetchPhase env mode false := by
      simp [sync_gacha_by_token, hacct, hfilter, hu8, hrole]
    refine ⟨hrun, ?_, ?_⟩
    · rw [hrun]
      exact syncFetchPhase_accountUpdateAttempted env mode false
    · intro hsave
      rw [hrun]
      exact syncFetchPhase_result_ok env mode false hsave
  · intro t m info rs1 rs3 hu8 hrole hupd h1 h2 h3 hwp hsave hne2
    have hrun : sync_gacha_by_token env uid "full" = syncFetchPhase env "full" true := by
      simp [sync_gacha_by_token, hacct, hfilter, hu8, hrole, hupd]
    rw [hrun]
    refine ⟨?_, ?_, ?_⟩ <;>
      simp [syncFetchPhase, charPoolTypes, lastSeqLookup, h1, h2, h3, hwp, hsave, hne2]
  · intro t m info hu8 hrole hupd hwp hsave
    have hrun : sync_gacha_by_token env uid "full" = syncFetchPhase env "full" true := by
      simp [sync_gacha_by_token, hacct, hfilter, hu8, hrole, hupd]
    rw [hrun]
    exact ⟨syncFetchPhase_result_ok env "full" true hsave,
      syncFetchPhase_weaponCalls_of_error env "full" true m hwp⟩

/-- Concrete discharge of the hypotheses of C8: on an environment that
fails only the weapon-pool listing, the amended policy applies with its
weapon-pools conjunct. -/
theorem C8_sync_failure_policy_witness :
    (∃ n, (sync_gacha_by_token c8Env "u1" "full").result = .ok (n, true)) ∧
    (sync_gacha_by_token c8Env "u1" "full").weaponCalls = [] := by
  exact (C8_sync_failure_policy c8Env "u1" "full" c8Account "tok" rfl rfl rfl).2.2.2
    "u8" "weapon pool list down" ⟨"u1", some "r1", some "nick", some 1⟩
    rfl rfl rfl rfl rfl

/-! ## C10: weapon pools and the incremental stop-sentinel map -/

/-- An account row for the sentinel-map runs. -/
def c10Account : AccountWithTokens :=
  ⟨"u2", none, none, some "1", none, none, some "tok2", none⟩

/-- An incremental run where the stored rows carry a char pool_type equal to
a weapon pool id. -/
def c10Env : SyncEnv :=
  { accountRow := .ok (some c10Account)
    u8TokenResp := .ok "u8"
    roleResp := .error "offline"
    accountUpdateResp := .ok ()
    seqRowsResp := .ok [("E_CharacterGachaPoolType_Special", "42")]
    charFetch := fun _ _ => .ok []
    weaponPoolsResp := .ok [("E_CharacterGachaPoolType_Special", "wp")]
    weaponFetch := fun _ _ => .ok []
    saveResp := .ok () }

/-- C10 counterexample: a weapon pool whose pool_id differs from the weapon
pool-type constant is nevertheless crawled with a stop sentinel, because its
pool_id coincides with a stored char pool_type key of the sentinel map; so
not every such pool is crawled without a sentinel. -/
theorem C10_weapon_sentinel_counterexample :
    (sync_gacha_by_token c10Env "u2" "incremental").weaponCalls
      = [("E_CharacterGachaPoolType_Special", some "42")] ∧
    ("E_CharacterGachaPoolType_Special" : String) ≠ "E_CharacterGachaPoolType_Weapon" := by
  exact ⟨rfl, by decide⟩

theorem takeUntilStop_mem (parse : RawItem → GachaRecord) (stop : Option String) :
    ∀ (items : List RawItem) (r : GachaRecord),
      r ∈ (takeUntilStop parse stop items).1 → ∃ it, r = parse it
  | [], r, h => by cases h
  | it :: rest, r, h => by
    rcases stop with _ | stopId
    · simp only [takeUntilStop, List.mem_cons] at h
      rcases h with h | h
      · exact ⟨it, h⟩
      · exact takeUntilStop_mem parse none rest r h
    · simp only [takeUntilStop] at h
      split at h
      · cases h
      · simp only [List.mem_cons] at h
        rcases h with h | h
        · exact ⟨it, h⟩
        · exact takeUntilStop_mem parse (some stopId) rest r h

theorem crawlLoop_result_parsed (parse : RawItem → GachaRecord) (em : String)
    (stop : Option String) :
    ∀ (pages : List ApiPage) (cursor : Option String) (acc recs : List GachaRecord),
      (crawlLoop parse em stop pages cursor acc).result = .ok recs →
      ∀ r ∈ recs, r ∈ acc ∨ ∃ it, r = parse it
  | [], _, _, _, h => by cases h
  | p :: rest, cursor, acc, recs, h => by
    have happ : ∀ (items : List RawItem) (newRecs : List GachaRecord) (flag : Bool),
        takeUntilStop parse stop items = (newRecs, flag) →
        acc ++ newRecs = recs →
        ∀ r ∈ recs, r ∈ acc ∨ ∃ it, r = parse it := by
      intro items newRecs flag htus hacc r hr
      rw [← hacc] at hr
      rcases List.mem_append.mp hr with hr2 | hr2
      · exact Or.inl hr2
      · exact Or.inr (takeUntilStop_mem parse stop items r (by rw [htus]; exact hr2))
    rw [crawlLoop_cons] at h
    split at h
    · split at h
      · intro r hr
        have hacc : acc = recs := by simpa using h
        exact Or.inl (by rw [hacc]; exact hr)
      · intro r hr
        have hacc : acc = recs := by simpa using h
        exact Or.inl (by rw [hacc]; exact hr)
      · rename_i x0 it its hlist
        split at h
        · rename_i x1 newRecs heq
          exact happ _ newRecs true heq (by simpa using h)
        · rename_i x1 newRecs heq
          split at h
          · exact happ _ newRecs false heq (by simpa using h)
          · rename_i xg g hg
            split at h
            · exact happ _ newRecs false heq (by simpa using h)
            · split at h
              · exact happ _ newRecs false heq (by simpa using h)
              · intro r hr
                have hrec := crawlLoop_result_parsed parse em stop rest
                  (some g.seq_id) (acc ++ newRecs) recs (by simpa using h)
                rcases hrec r hr with hr2 | hr2
                · rcases List.mem_append.mp hr2 with hr3 | hr3
                  · exact Or.inl hr3
                  · exact Or.inr (takeUntilStop_mem parse stop _ r
                      (by rw [heq]; exact hr3))
                · exact Or.inr hr2
    · cases h

/-- C10 amended: in an incremental sync the stop-sentinel map is keyed by
the stored pool_type values and each weapon crawl looks its sentinel up by
pool_id, so every weapon pool whose pool_id differs from every stored
pool_type value is crawled with no stop sentinel; and every record a weapon
crawl returns carries the fixed pool_type
E_CharacterGachaPoolType_Weapon — which is why a weapon-pool pool_id can
only hit the map through such a coincidence, never through a key written by
a weapon crawl of that pool. -/
theorem C10_weapon_sentinel_lookup (env : SyncEnv) (uid : String)
    (acct : AccountWithTokens) (o t m : String)
    (rows : List (String × String)) (pools : List (String × String))
    (hacct : env.accountRow = .ok (some acct))
    (hoauth : acct.oauth_token = some o) (hne : o.isEmpty = false)
    (hu8 : env.u8TokenResp = .ok t) (hrole : env.roleResp = .error m)
    (hrows : env.seqRowsResp = .ok rows)
    (hpools : env.weaponPoolsResp = .ok pools) :
    (∀ pid nm, (pid, nm) ∈ pools → (∀ row ∈ rows, row.1 ≠ pid) →
      (pid, none) ∈ (sync_gacha_by_token env uid "incremental").weaponCalls) ∧
    (∀ (pool_id : String) (stop : Option String) (pages : List ApiPage)
        (recs : List GachaRecord),
      (fetch_weapon_records pool_id stop pages).result = .ok recs →
      ∀ r ∈ recs, r.pool_type = "E_CharacterGachaPoolType_Weapon") := by
  have hfilter : acct.oauth_token.filter (fun s => !s.isEmpty) = some o := by
    rw [hoauth]
    simp [Option.filter, hne]
  constructor
  · intro pid nm hmem hnokey
    have hrun : sync_gacha_by_token env uid "incremental"
        = syncFetchPhase env "incremental" false := by
      simp [sync_gacha_by_token, hacct, hfilter, hu8, hrole]
    have hlookup : lastSeqLookup rows pid = none := by
      rw [lastSeqLookup, List.find?_eq_none.mpr]
      · rfl
      · intro row hrow
        simpa using hnokey row hrow
    have hcalls : (sync_gacha_by_token env uid "incremental").weaponCalls
        = pools.map fun pr => (pr.1, lastSeqLookup rows pr.1) := by
      rw [hrun]
      exact syncFetchPhase_weaponCalls_ok env false pools rows hpools hrows
    rw [hcalls]
    have : (pid, none) = (fun pr : String × String => (pr.1, lastSeqLookup rows pr.1)) (pid, nm) := by
      simp [hlookup]
    rw [this]
    exact List.mem_map_of_mem _ hmem
  · intro pool_id stop pages recs h r hr
    rcases crawlLoop_result_parsed (parse_weapon_item pool_id)
      "获取武器记录失败" stop pages none [] recs h r hr with h2 | ⟨it, h2⟩
    · cases h2
    · rw [h2]
      rfl

/-- Concrete discharge of the hypotheses of C10: a weapon pool whose id
matches no stored key is crawled with no sentinel, and a concrete weapon
crawl yields only records of the weapon pool type. -/
theorem C10_weapon_sentinel_lookup_witness :
    ("wpool9", (none : Option String)) ∈
      (sync_gacha_by_token
        { accountRow := .ok (some c10Account)
          u8TokenResp := .ok "t"
          roleResp := .error "m"
          accountUpdateResp := .ok ()
          seqRowsResp := .ok [("E_CharacterGachaPoolType_Special", "42")]
          charFetch := fun _ _ => .ok []
          weaponPoolsResp := .ok [("wpool9", "wp")]
          weaponFetch := fun _ _ => .ok []
          saveResp := .ok () } "u2" "incremental").weaponCalls ∧
    (∀ r ∈ ([⟨"w", "wid", 5, "wpool9", "wp", "1", 3,
        "E_CharacterGachaPoolType_Weapon", false, false⟩] : List GachaRecord),
      r.pool_type = "E_CharacterGachaPoolType_Weapon") := by
  constructor
  · exact (C10_weapon_sentinel_lookup _ "u2" c10Account "tok2" "t" "m"
      [("E_CharacterGachaPoolType_Special", "42")] [("wpool9", "wp")]
      rfl rfl rfl rfl rfl rfl rfl).1 "wpool9" "wp" (by simp)
      (by intro row hrow
          simp only [List.mem_singleton] at hrow
          subst hrow
          decide)
  · exact (C10_weapon_sentinel_lookup c10Env "u2" c10Account "tok2" "u8" "offline"
      [("E_CharacterGachaPoolType_Special", "42")]
      [("E_CharacterGachaPoolType_Special", "wp")]
      rfl rfl rfl rfl rfl rfl rfl).2 "wpool9" none
      [⟨0, none, some [⟨some "1", some "w", some "wid", some 5, some "wpool9",
        some "wp", some 3, some false, some false⟩], some false⟩]
      _ rfl

end EndfieldCat
